import Mathlib

/-!
Verification of the tool-augmented conversational orchestration loop of the
utcp-examples repository.  The embedded program is the `main` function of the
TypeScript OpenAI integration example (the while-loop driving one
conversational turn: tool search, prompt composition, model query, JSON
directive extraction, tool execution, follow-up query, history append).

Strings are modelled as `List Char`.  JavaScript's `JSON.parse` / `JSON.stringify`
are modelled by an executable JSON parser / printer over an explicit `Json`
inductive; numbers are kept as their source lexeme (no claim depends on
numeric value semantics), and `\uXXXX` escapes are decoded without surrogate
pairing.
-/

namespace UtcpExample

/-- JSON values as produced by `JSON.parse`.  Object member order is the
textual order; duplicate keys are kept and field lookup takes the last
occurrence, as JavaScript object construction does. -/
inductive Json where
  | null : Json
  | bool : Bool → Json
  | num : List Char → Json
  | str : List Char → Json
  | arr : List Json → Json
  | obj : List (List Char × Json) → Json

/-- JSON whitespace characters. -/
def isJsonWs (c : Char) : Bool :=
  (c == ' ') || (c == '\t') || (c == '\n') || (c == '\r')

/-- Drop leading JSON whitespace. -/
def skipWs : List Char → List Char
  | [] => []
  | c :: cs => if isJsonWs c then skipWs cs else c :: cs

/-- Value of one hexadecimal digit. -/
def hexVal (c : Char) : Option Nat :=
  if c.isDigit then some (c.toNat - 48)
  else if 'a' ≤ c && c ≤ 'f' then some (c.toNat - 87)
  else if 'A' ≤ c && c ≤ 'F' then some (c.toNat - 55)
  else none

/-- Single-character JSON string escapes, by code point: quote (34),
backslash (92) and slash (47) stand for themselves; `b` (98) means
backspace 8, `f` (102) form feed 12, `n` (110) line feed 10, `r` (114)
carriage return 13, `t` (116) tab 9. -/
def escChar (c : Char) : Option Char :=
  let n := c.toNat
  if n = 34 ∨ n = 92 ∨ n = 47 then some c
  else if n = 98 then some (Char.ofNat 8)
  else if n = 102 then some (Char.ofNat 12)
  else if n = 110 then some (Char.ofNat 10)
  else if n = 114 then some (Char.ofNat 13)
  else if n = 116 then some (Char.ofNat 9)
  else none

/-- Parse the body of a JSON string literal (after the opening quote);
returns the decoded content and the remainder after the closing quote.
Raw control characters are rejected, as `JSON.parse` rejects them. -/
def parseStringBody : List Char → Option (List Char × List Char)
  | [] => none
  | '"' :: rest => some ([], rest)
  | '\\' :: 'u' :: h1 :: h2 :: h3 :: h4 :: rest =>
    match hexVal h1, hexVal h2, hexVal h3, hexVal h4 with
    | some a, some b, some c, some d =>
      (parseStringBody rest).map
        (fun p => (Char.ofNat (4096 * a + 256 * b + 16 * c + d) :: p.1, p.2))
    | _, _, _, _ => none
  | '\\' :: e :: rest =>
    match escChar e with
    | some c => (parseStringBody rest).map (fun p => (c :: p.1, p.2))
    | none => none
  | c :: rest =>
    if c.toNat < 32 then none
    else (parseStringBody rest).map (fun p => (c :: p.1, p.2))

/-- Longest prefix of decimal digits, with the remainder. -/
def spanDigits : List Char → (List Char × List Char)
  | [] => ([], [])
  | c :: rest =>
    if c.isDigit then
      let p := spanDigits rest
      (c :: p.1, p.2)
    else ([], c :: rest)

/-- JSON integer part: `0`, or a nonzero digit followed by digits. -/
def parseIntPart : List Char → Option (List Char × List Char)
  | [] => none
  | '0' :: rest => some (['0'], rest)
  | c :: rest =>
    if c.isDigit then
      let p := spanDigits rest
      some (c :: p.1, p.2)
    else none

/-- Optional JSON fraction part (`.` followed by at least one digit). -/
def parseFracPart : List Char → Option (List Char × List Char)
  | '.' :: rest =>
    let p := spanDigits rest
    if p.1.isEmpty then none else some ('.' :: p.1, p.2)
  | cs => some ([], cs)

/-- Optional JSON exponent part (`e`/`E`, optional sign, at least one digit). -/
def parseExpPart : List Char → Option (List Char × List Char)
  | [] => some ([], [])
  | c :: rest =>
    if c == 'e' || c == 'E' then
      match rest with
      | s :: rest2 =>
        if s == '+' || s == '-' then
          let p := spanDigits rest2
          if p.1.isEmpty then none else some (c :: s :: p.1, p.2)
        else
          let p := spanDigits rest
          if p.1.isEmpty then none else some (c :: p.1, p.2)
      | [] => none
    else some ([], c :: rest)

/-- JSON number after an optional leading minus sign. -/
def parseNumberBody (cs : List Char) : Option (List Char × List Char) :=
  match parseIntPart cs with
  | none => none
  | some (ip, r1) =>
    match parseFracPart r1 with
    | none => none
    | some (fp, r2) =>
      match parseExpPart r2 with
      | none => none
      | some (ep, r3) => some (ip ++ fp ++ ep, r3)

/-- JSON number lexeme (kept as written). -/
def parseNumber : List Char → Option (List Char × List Char)
  | '-' :: rest => (parseNumberBody rest).map (fun p => ('-' :: p.1, p.2))
  | cs => parseNumberBody cs

mutual

/-- Fuel-indexed JSON value parser; returns the value and the remainder. -/
def parseValue : Nat → List Char → Option (Json × List Char)
  | 0, _ => none
  | Nat.succ fuel, cs =>
    match skipWs cs with
    | 'n' :: 'u' :: 'l' :: 'l' :: rest => some (Json.null, rest)
    | 't' :: 'r' :: 'u' :: 'e' :: rest => some (Json.bool true, rest)
    | 'f' :: 'a' :: 'l' :: 's' :: 'e' :: rest => some (Json.bool false, rest)
    | '"' :: rest => (parseStringBody rest).map (fun p => (Json.str p.1, p.2))
    | '[' :: rest =>
      (match skipWs rest with
       | ']' :: rest2 => some (Json.arr [], rest2)
       | _ => parseElements fuel rest [])
    | '{' :: rest =>
      (match skipWs rest with
       | '}' :: rest2 => some (Json.obj [], rest2)
       | _ => parseMembers fuel rest [])
    | other => (parseNumber other).map (fun p => (Json.num p.1, p.2))

/-- Array elements after `[` (nonempty case). -/
def parseElements : Nat → List Char → List Json → Option (Json × List Char)
  | 0, _, _ => none
  | Nat.succ fuel, cs, acc =>
    match parseValue fuel cs with
    | none => none
    | some (v, rest) =>
      match skipWs rest with
      | ',' :: rest2 => parseElements fuel rest2 (acc ++ [v])
      | ']' :: rest2 => some (Json.arr (acc ++ [v]), rest2)
      | _ => none

/-- Object members after `\x7b` (nonempty case). -/
def parseMembers : Nat → List Char → List (List Char × Json) → Option (Json × List Char)
  | 0, _, _ => none
  | Nat.succ fuel, cs, acc =>
    match skipWs cs with
    | '"' :: rest =>
      (match parseStringBody rest with
       | none => none
       | some (key, rest2) =>
         match skipWs rest2 with
         | ':' :: rest3 =>
           (match parseValue fuel rest3 with
            | none => none
            | some (v, rest4) =>
              match skipWs rest4 with
              | ',' :: rest5 => parseMembers fuel rest5 (acc ++ [(key, v)])
              | '}' :: rest5 => some (Json.obj (acc ++ [(key, v)]), rest5)
              | _ => none)
         | _ => none)
    | _ => none

end

/-- `JSON.parse`: parse one value and require only whitespace to remain;
any failure (a thrown `SyntaxError` in JavaScript) is `none`. -/
def Json.parse (cs : List Char) : Option Json :=
  match parseValue (2 * cs.length + 2) cs with
  | some (v, rest) => if skipWs rest = [] then some v else none
  | none => none

/-- Property access `o.k` on a parsed JSON object: with duplicate keys,
`JSON.parse` keeps the last occurrence.  Non-objects have no fields. -/
def Json.getField : Json → List Char → Option Json
  | Json.obj kvs, k => (kvs.reverse.find? (fun kv => kv.1 == k)).map (fun kv => kv.2)
  | _, _ => none

/-- Lower-case hexadecimal digit, as `JSON.stringify` prints control escapes. -/
def hexDigit (n : Nat) : Char :=
  if n < 10 then Char.ofNat (48 + n) else Char.ofNat (87 + n)

/-- Escaping of one character inside a `JSON.stringify` string literal. -/
def escapeJsonChar (c : Char) : List Char :=
  if c == '"' then ['\\', '"']
  else if c == '\\' then ['\\', '\\']
  else if c == '\x08' then ['\\', 'b']
  else if c == '\t' then ['\\', 't']
  else if c == '\n' then ['\\', 'n']
  else if c == '\x0c' then ['\\', 'f']
  else if c == '\r' then ['\\', 'r']
  else if c.toNat < 32 then
    ['\\', 'u', '0', '0', hexDigit (c.toNat / 16), hexDigit (c.toNat % 16)]
  else [c]

/-- Escaping of a whole string for `JSON.stringify`. -/
def escapeJsonString (s : List Char) : List Char :=
  (s.map escapeJsonChar).flatten

mutual

/-- Compact `JSON.stringify(value)` (no indent argument), used for the tool
output; numbers print their stored lexeme. -/
def Json.stringify : Json → List Char
  | Json.null => ['n', 'u', 'l', 'l']
  | Json.bool true => ['t', 'r', 'u', 'e']
  | Json.bool false => ['f', 'a', 'l', 's', 'e']
  | Json.num lex => lex
  | Json.str s => '"' :: escapeJsonString s ++ ['"']
  | Json.arr xs => '[' :: stringifyItems xs ++ [']']
  | Json.obj kvs => '{' :: stringifyEntries kvs ++ ['}']

/-- Comma-separated compact array items. -/
def stringifyItems : List Json → List Char
  | [] => []
  | [x] => Json.stringify x
  | x :: xs => Json.stringify x ++ ',' :: stringifyItems xs

/-- Comma-separated compact object members. -/
def stringifyEntries : List (List Char × Json) → List Char
  | [] => []
  | [kv] => '"' :: escapeJsonString kv.1 ++ '"' :: ':' :: Json.stringify kv.2
  | kv :: rest =>
    '"' :: escapeJsonString kv.1 ++ '"' :: ':' :: Json.stringify kv.2 ++
      ',' :: stringifyEntries rest

end

/-- `n` spaces of indentation. -/
def nSpaces (n : Nat) : List Char := List.replicate n ' '

mutual

/-- Pretty `JSON.stringify(value, null, 2)` at the given indentation level:
nonempty arrays and objects break onto indented lines, empty ones print
as two brackets. -/
def stringifyIndent : Nat → Json → List Char
  | _, Json.null => ['n', 'u', 'l', 'l']
  | _, Json.bool true => ['t', 'r', 'u', 'e']
  | _, Json.bool false => ['f', 'a', 'l', 's', 'e']
  | _, Json.num lex => lex
  | _, Json.str s => '"' :: escapeJsonString s ++ ['"']
  | _, Json.arr [] => ['[', ']']
  | ind, Json.arr (x :: xs) =>
    '[' :: '\n' :: stringifyIndentItems (ind + 2) (x :: xs) ++
      '\n' :: nSpaces ind ++ [']']
  | _, Json.obj [] => ['{', '}']
  | ind, Json.obj (kv :: kvs) =>
    '{' :: '\n' :: stringifyIndentEntries (ind + 2) (kv :: kvs) ++
      '\n' :: nSpaces ind ++ ['}']

/-- Indented array items joined by a comma and newline. -/
def stringifyIndentItems : Nat → List Json → List Char
  | _, [] => []
  | ind, [x] => nSpaces ind ++ stringifyIndent ind x
  | ind, x :: xs =>
    nSpaces ind ++ stringifyIndent ind x ++ ',' :: '\n' ::
      stringifyIndentItems ind xs

/-- Indented object members (`"key": value`) joined by a comma and newline. -/
def stringifyIndentEntries : Nat → List (List Char × Json) → List Char
  | _, [] => []
  | ind, [kv] =>
    nSpaces ind ++ '"' :: escapeJsonString kv.1 ++ '"' :: ':' :: ' ' ::
      stringifyIndent ind kv.2
  | ind, kv :: rest =>
    nSpaces ind ++ '"' :: escapeJsonString kv.1 ++ '"' :: ':' :: ' ' ::
      stringifyIndent ind kv.2 ++ ',' :: '\n' :: stringifyIndentEntries ind rest

end

mutual

/-- JavaScript string coercion of a value interpolated into a template
literal; objects print `[object Object]`, arrays join their elements with
commas (with `null` rendered empty inside arrays). -/
def jsToString : Json → List Char
  | Json.str s => s
  | Json.num lex => lex
  | Json.bool true => ['t', 'r', 'u', 'e']
  | Json.bool false => ['f', 'a', 'l', 's', 'e']
  | Json.null => ['n', 'u', 'l', 'l']
  | Json.obj _ =>
    ['[', 'o', 'b', 'j', 'e', 'c', 't', ' ', 'O', 'b', 'j', 'e', 'c', 't', ']']
  | Json.arr xs => jsToStringItems xs

/-- Elements of `Array.prototype.toString`, comma separated. -/
def jsToStringItems : List Json → List Char
  | [] => []
  | [Json.null] => []
  | [x] => jsToString x
  | Json.null :: xs => ',' :: jsToStringItems xs
  | x :: xs => jsToString x ++ ',' :: jsToStringItems xs

end

/-- Index of the first occurrence of `pat` as a contiguous substring of the
text, scanning left to right (the start position a JavaScript regex engine
reports for a literal pattern). -/
def findSub (pat : List Char) : List Char → Option Nat
  | [] => if pat.isEmpty then some 0 else none
  | c :: rest =>
    if pat.isPrefixOf (c :: rest) then some 0
    else (findSub pat rest).map (fun i => i + 1)

/-- Whether `pat` occurs as a contiguous substring. -/
def containsSub (pat cs : List Char) : Bool :=
  (findSub pat cs).isSome

/-- Index of the first element satisfying the predicate. -/
def firstIdxOf (p : Char → Bool) : List Char → Option Nat
  | [] => none
  | c :: rest => if p c then some 0 else (firstIdxOf p rest).map (fun i => i + 1)

/-- Index of the last element satisfying the predicate. -/
def lastIdxOf (p : Char → Bool) (cs : List Char) : Option Nat :=
  (firstIdxOf p cs.reverse).map (fun k => cs.length - 1 - k)

/-- Literal prefix a match of the fenced-block regex must begin with:
three backticks, `json`, a newline, and the opening brace of the capture. -/
def fencedOpenPat : List Char := ("```json\n\x7b").toList

/-- Literal the lazy capture of the fenced-block regex stops at: the closing
brace, a newline and three backticks. -/
def fencedClosePat : List Char := ("\x7d\n```").toList

/-- Match of the first regex of the source, `/(three backticks)json\n(\x7b.*?\x7d)\n(three backticks)/s`:
the leftmost occurrence of the literal opening, then the lazy (shortest)
capture, i.e. up to the first occurrence of the closing literal; the dot
matches newlines (`s` flag).  Returns the captured group. -/
def matchFencedJson (cs : List Char) : Option (List Char) :=
  match findSub fencedOpenPat cs with
  | none => none
  | some i =>
    match findSub fencedClosePat (cs.drop (i + 9)) with
    | none => none
    | some k => some ((cs.drop (i + 8)).take (k + 2))

/-- Match of the second regex of the source, `/(\x7b.*\x7d)/s`: the leftmost
viable start is the first opening brace followed by some closing brace, and
the greedy dot extends the capture to the last closing brace of the whole
text. -/
def matchGreedyBrace (cs : List Char) : Option (List Char) :=
  match firstIdxOf (fun c => c == '{') cs with
  | none => none
  | some i =>
    match lastIdxOf (fun c => c == '}') cs with
    | none => none
    | some j => if i < j then some ((cs.drop i).take (j - i + 1)) else none

/-- The candidate JSON substring of a model reply: the fenced-block regex is
tried first, the greedy brace regex second (`match(...) || match(...)` in the
source). -/
def extractJsonCandidate (cs : List Char) : Option (List Char) :=
  match matchFencedJson cs with
  | some c => some c
  | none => matchGreedyBrace cs

/-- A parsed tool-invocation directive: the values found under the
`tool_name` and `arguments` keys (the source reads them without checking
their types). -/
structure Directive where
  tool_name : Json
  arguments : Json

/-- The response-interpretation logic of the turn: extract a candidate
substring, `JSON.parse` it (a thrown parse error lands in the `catch` and
yields the plain-reply outcome), and require both the `tool_name` and the
`arguments` keys to be present (the `in` operator checks presence only).
`none` means the reply is treated as a plain assistant message. -/
def interpret (cs : List Char) : Option Directive :=
  match extractJsonCandidate cs with
  | none => none
  | some c =>
    match Json.parse c with
    | none => none
    | some j =>
      match j.getField (['t', 'o', 'o', 'l', '_', 'n', 'a', 'm', 'e']),
            j.getField (['a', 'r', 'g', 'u', 'm', 'e', 'n', 't', 's']) with
      | some tn, some args => some ⟨tn, args⟩
      | _, _ => none

/-- Chat message roles used by the example. -/
inductive Role where
  | system : Role
  | user : Role
  | assistant : Role
deriving DecidableEq

/-- One chat message (`ChatCompletionMessageParam` with string content). -/
structure Message where
  role : Role
  content : List Char
deriving DecidableEq

/-- Serialization of the discovered tools for the prompt:
`JSON.stringify(tools, null, 2)`.  A tool descriptor is treated as the JSON
data the catalog returned. -/
def formatToolsForPrompt (tools : List Json) : List Char :=
  stringifyIndent 0 (Json.arr tools)

/-- The fixed instruction text of the system prompt, up to the serialized
tool list appended by the template literal. -/
def systemPromptPrefix : List Char :=
  ("You are a helpful assistant. When you need to use a tool, you MUST respond with a JSON object " ++
   "with \x27tool_name\x27 and \x27arguments\x27 keys. Do not add any other text. The arguments must be a JSON object." ++
   "For example: \x7b\"tool_name\": \"some_tool.name\", \"arguments\": \x7b\"arg1\": \"value1\"\x7d\x7d. " ++
   "Here are the available tools:\n").toList

/-- The per-turn system prompt: the fixed instruction followed by the
serialized tool list. -/
def mkSystemPrompt (toolsJsonString : List Char) : List Char :=
  systemPromptPrefix ++ toolsJsonString

/-- The loop's exit test: the lower-cased input equals `exit` or `quit`. -/
def isExit (up : List Char) : Bool :=
  let l := up.map Char.toLower
  l == ("exit".toList) || l == ("quit".toList)

/-- Outcome of one gateway call, as supplied by the environment: a thrown
error, or a successful completion whose message content may be absent. -/
def getOpenAIResponse (resp : Except (List Char) (Option (List Char))) :
    Except (List Char) (List Char) :=
  match resp with
  | Except.error e => Except.error e
  | Except.ok none => Except.ok []
  | Except.ok (some c) => Except.ok c

/-- The external collaborators' behavior during one loop iteration: the user
input, the tool-search outcome, the two gateway call outcomes and the tool
execution outcome (each `error` models a thrown exception). -/
structure TurnEnv where
  userPrompt : List Char
  searchResult : Except (List Char) (List Json)
  response1 : Except (List Char) (Option (List Char))
  toolResult : Except (List Char) Json
  response2 : Except (List Char) (Option (List Char))

/-- How one loop iteration ends: the user exited, the turn completed with an
answer (the loop continues), or an uncaught exception escaped the loop (the
process terminates via the rejection handler on `main`). -/
inductive TurnOutcome where
  | exited : TurnOutcome
  | completed : List Char → TurnOutcome
  | crashed : List Char → TurnOutcome
deriving DecidableEq

/-- Observable side effects of one iteration: the message lists sent to the
gateway, in order, and the `(tool_name, arguments)` pairs passed to
`call_tool`. -/
structure TurnTrace where
  queries : List (List Message)
  toolCalls : List (Json × Json)

/-- One iteration of the while-loop of `main`: exit test, tool search,
system-prompt construction, first gateway query, directive extraction, and
either the plain-reply append, or the tool call, the two history pushes, the
follow-up query carrying the tool output as a synthetic user message, and the
final append.  Exceptions from the tool search and the initial gateway query
propagate out of the loop (crash); a tool execution exception is caught by
the inner catch and folded into the tool output; a follow-up gateway
exception is caught by the outer catch wrapping the whole directive path,
which prints the raw directive text as the answer and pushes the user and
raw-directive messages a second time after the pushes already made before
the follow-up call. -/
def mainTurn (env : TurnEnv) (history : List Message) :
    TurnOutcome × List Message × TurnTrace :=
  if isExit env.userPrompt then (TurnOutcome.exited, history, ⟨[], []⟩)
  else
    match env.searchResult with
    | Except.error e => (TurnOutcome.crashed e, history, ⟨[], []⟩)
    | Except.ok relevantTools =>
      let toolsJsonString := formatToolsForPrompt relevantTools
      let systemPrompt := mkSystemPrompt toolsJsonString
      let messages : List Message :=
        ⟨Role.system, systemPrompt⟩ :: (history ++ [⟨Role.user, env.userPrompt⟩])
      match getOpenAIResponse env.response1 with
      | Except.error e => (TurnOutcome.crashed e, history, ⟨[messages], []⟩)
      | Except.ok assistantResponse =>
        match interpret assistantResponse with
        | some directive =>
          let toolOutput : List Char :=
            match env.toolResult with
            | Except.ok result => Json.stringify result
            | Except.error err =>
              ("Error calling ".toList) ++ jsToString directive.tool_name ++
                (": ".toList) ++ err
          let history1 :=
            history ++ [⟨Role.user, env.userPrompt⟩, ⟨Role.assistant, assistantResponse⟩]
          let followUpMessages : List Message :=
            ⟨Role.system, systemPrompt⟩ ::
              (history1 ++ [⟨Role.user, ("Tool output: ".toList) ++ toolOutput⟩])
          match getOpenAIResponse env.response2 with
          | Except.error _ =>
            (TurnOutcome.completed assistantResponse,
              history1 ++ [⟨Role.user, env.userPrompt⟩, ⟨Role.assistant, assistantResponse⟩],
              ⟨[messages, followUpMessages],
               [(directive.tool_name, directive.arguments)]⟩)
          | Except.ok finalResponse =>
            (TurnOutcome.completed finalResponse,
              history1 ++ [⟨Role.assistant, finalResponse⟩],
              ⟨[messages, followUpMessages],
               [(directive.tool_name, directive.arguments)]⟩)
        | none =>
          (TurnOutcome.completed assistantResponse,
            history ++ [⟨Role.user, env.userPrompt⟩, ⟨Role.assistant, assistantResponse⟩],
            ⟨[messages], []⟩)

/-- The session loop: iterations run while turns complete; an exit or an
escaped exception stops the loop, leaving the history as it then is. -/
def runSession (envs : List TurnEnv) (history : List Message) : List Message :=
  match envs with
  | [] => history
  | env :: rest =>
    match mainTurn env history with
    | (TurnOutcome.completed _, h1, _) => runSession rest h1
    | (_, h1, _) => h1

/-- Whether the iteration on this environment reaches a tool call: the first
gateway reply yields a directive. -/
def envToolUsed (env : TurnEnv) : Bool :=
  match getOpenAIResponse env.response1 with
  | Except.ok r => (interpret r).isSome
  | Except.error _ => false

/-- Whether the iteration on this environment completes as a turn (no exit,
no escaped exception).  Only the tool search and the initial gateway query
can throw uncaught; every later failure of the directive path is absorbed by
the outer catch, so the turn still completes. -/
def envCompletes (env : TurnEnv) : Bool :=
  !isExit env.userPrompt &&
  (match env.searchResult with
   | Except.error _ => false
   | Except.ok _ =>
     match getOpenAIResponse env.response1 with
     | Except.error _ => false
     | Except.ok _ => true)

/-- Whether the follow-up gateway call of this environment throws (caught by
the outer catch when a directive was extracted). -/
def envFollowUpThrew (env : TurnEnv) : Bool :=
  match getOpenAIResponse env.response2 with
  | Except.ok _ => false
  | Except.error _ => true

/-- Modelled from the spec (Response Interpreter, section 4.2): the shape
check the spec prescribes, requiring a `tool_name` field of string type and
an `arguments` field of object type. -/
def parseDirectiveSpec (c : List Char) : Option Directive :=
  match Json.parse c with
  | none => none
  | some j =>
    match j.getField (['t', 'o', 'o', 'l', '_', 'n', 'a', 'm', 'e']),
          j.getField (['a', 'r', 'g', 'u', 'm', 'e', 'n', 't', 's']) with
    | some (Json.str tn), some (Json.obj kvs) =>
      some ⟨Json.str tn, Json.obj kvs⟩
    | _, _ => none

/-- The shortest brace-balanced span beginning at the head of the list
(which is expected to be an opening brace), counting nesting depth. -/
def balancedTake : List Char → Nat → List Char → Option (List Char)
  | [], _, _ => none
  | c :: rest, depth, acc =>
    if c == '{' then balancedTake rest (depth + 1) (acc ++ [c])
    else if c == '}' then
      if depth == 0 then none
      else if depth == 1 then some (acc ++ [c])
      else balancedTake rest (depth - 1) (acc ++ [c])
    else balancedTake rest depth (acc ++ [c])

/-- Modelled from the spec (Response Interpreter, section 4.2): all balanced
brace-delimited substrings of the text, in order of their start position. -/
def specCandidatesFrom : List Char → List (List Char)
  | [] => []
  | c :: rest =>
    let tail := specCandidatesFrom rest
    if c == '{' then
      match balancedTake (c :: rest) 0 [] with
      | some span => span :: tail
      | none => tail
    else tail

/-- First element of the list of options that is `some`. -/
def firstSomeOpt : List (Option Directive) → Option Directive
  | [] => none
  | some d :: _ => some d
  | none :: rest => firstSomeOpt rest

/-- Modelled from the spec (Response Interpreter, section 4.2): try the
fenced code block labeled as JSON first; otherwise, among all balanced
brace substrings in order, the first one that parses as JSON and satisfies
the shape check wins; otherwise fall through to `none`. -/
def interpretSpec (cs : List Char) : Option Directive :=
  match (matchFencedJson cs).bind parseDirectiveSpec with
  | some d => some d
  | none => firstSomeOpt ((specCandidatesFrom cs).map parseDirectiveSpec)

/-- The shape the spec requires of a directive object: `tool_name` holds a
string and `arguments` holds an object. -/
def isWellTypedDirective (j : Json) : Bool :=
  match j.getField (['t', 'o', 'o', 'l', '_', 'n', 'a', 'm', 'e']),
        j.getField (['a', 'r', 'g', 'u', 'm', 'e', 'n', 't', 's']) with
  | some (Json.str _), some (Json.obj _) => true
  | _, _ => false

/-- The contiguous substring of length `len + 1` starting at index `i`. -/
def sliceFrom (cs : List Char) (i len : Nat) : List Char :=
  (cs.drop i).take (len + 1)

/-- Whether some contiguous substring of the text parses as a JSON value
with a string-typed `tool_name` field and an object-typed `arguments`
field. -/
def containsWellTypedDirective (cs : List Char) : Bool :=
  (List.range (cs.length + 1)).any (fun i =>
    (List.range (cs.length + 1 - i)).any (fun len =>
      match Json.parse (sliceFrom cs i len) with
      | some j => isWellTypedDirective j
      | none => false))

/-- The `toolOutput` string a turn computes for a directive: the serialized
result on success, or the human-readable error combining the tool name and
the failure reason on a caught execution exception. -/
def turnToolOutput (env : TurnEnv) (d : Directive) : List Char :=
  match env.toolResult with
  | Except.ok result => Json.stringify result
  | Except.error err =>
    ("Error calling ".toList) ++ jsToString d.tool_name ++ (": ".toList) ++ err

/-- The backtick character (code point 96). -/
def backtickChar : Char := Char.ofNat 96

/-- The claim that a gateway failure — on the initial query or on the
follow-up re-query — aborts the turn with the error as the answer, leaves
the history exactly as before the turn, and lets the session continue
(a completed outcome). -/
def claimGatewayFailureFatal : Prop :=
  (∀ (env : TurnEnv) (h : List Message) (e : List Char),
      isExit env.userPrompt = false →
      (∃ tools, env.searchResult = Except.ok tools) →
      getOpenAIResponse env.response1 = Except.error e →
      (mainTurn env h).1 = TurnOutcome.completed e ∧ (mainTurn env h).2.1 = h) ∧
  (∀ (env : TurnEnv) (h : List Message) (r : List Char) (d : Directive) (e : List Char),
      isExit env.userPrompt = false →
      (∃ tools, env.searchResult = Except.ok tools) →
      getOpenAIResponse env.response1 = Except.ok r →
      interpret r = some d →
      getOpenAIResponse env.response2 = Except.error e →
      (mainTurn env h).1 = TurnOutcome.completed e ∧ (mainTurn env h).2.1 = h)

/-- The claim that every completed session of completed turns leaves a
history of exactly two entries per turn. -/
def claimHistoryPairGrowth : Prop :=
  ∀ envs : List TurnEnv, (∀ e ∈ envs, envCompletes e = true) →
    (runSession envs []).length = 2 * envs.length

/-- The claim that the implemented interpreter behaves as the spec's
algorithm: fenced block first, then the first balanced brace substring that
parses and satisfies the shape check. -/
def claimInterpretMatchesSpec : Prop :=
  ∀ raw : List Char, interpret raw = interpretSpec raw

/-- The claim that a text containing no JSON object with a string-typed
`tool_name` and an object-typed `arguments` is always interpreted as a
plain reply. -/
def claimTypeCheckToNull : Prop :=
  ∀ raw : List Char, containsWellTypedDirective raw = false → interpret raw = none

/-- The claim that a successful gateway call returning empty content is
turn-fatal: history unchanged and the empty text not answered as a plain
reply. -/
def claimEmptyContentFatal : Prop :=
  ∀ (env : TurnEnv) (h : List Message),
    isExit env.userPrompt = false →
    (∃ tools, env.searchResult = Except.ok tools) →
    env.response1 = Except.ok none →
    (mainTurn env h).2.1 = h ∧ (mainTurn env h).1 ≠ TurnOutcome.completed []

/-- The claim that the system instruction composed for the empty tool slice
states the no-tool fallback, telling the model to reply in natural language
(operationalized as the spec's own phrase occurring in the instruction). -/
def claimNoToolFallback : Prop :=
  containsSub ("natural language".toList) (mkSystemPrompt (formatToolsForPrompt [])) = true

/-- A well-formed directive reply naming tool `t` with empty arguments. -/
def dirRaw : List Char := ("\x7b\"tool_name\":\"t\",\"arguments\":\x7b\x7d\x7d").toList

/-- The parsed form of `dirRaw`. -/
def dirVal : Directive := ⟨Json.str ['t'], Json.obj []⟩

/-- A well-formed directive reply naming a tool absent from any catalog. -/
def dirGhostRaw : List Char :=
  ("\x7b\"tool_name\":\"missing.tool\",\"arguments\":\x7b\x7d\x7d").toList

/-- The parsed form of `dirGhostRaw`. -/
def dirGhost : Directive := ⟨Json.str ("missing.tool".toList), Json.obj []⟩

/-- A model reply holding two brace substrings: the first is a well-formed
directive, so the spec's tie-break picks it; the source's greedy regex spans
both and fails to parse. -/
def tieBreakRaw : List Char := dirRaw ++ (" \x7b\"x\":1\x7d").toList

/-- A reply whose single JSON object carries number-typed `tool_name` and
`arguments` fields. -/
def typeFreeRaw : List Char := ("\x7b\"tool_name\":1,\"arguments\":2\x7d").toList

/-- A turn whose gateway replies with a directive, whose tool succeeds and
whose follow-up succeeds. -/
def envTool : TurnEnv :=
  ⟨"hi".toList, Except.ok [], Except.ok (some dirRaw),
   Except.ok (Json.str ['r']), Except.ok (some ("done".toList))⟩

/-- A turn whose gateway replies with plain text. -/
def envPlain : TurnEnv :=
  ⟨"hey".toList, Except.ok [], Except.ok (some ("hello".toList)),
   Except.ok (Json.str ['r']), Except.ok (some ("done".toList))⟩

/-- A turn whose initial gateway call throws. -/
def envFailQuery : TurnEnv :=
  ⟨"hi".toList, Except.ok [], Except.error ("boom".toList),
   Except.ok (Json.str ['r']), Except.ok (some ("done".toList))⟩

/-- A turn whose follow-up gateway call throws after a directive. -/
def envFailFollow : TurnEnv :=
  ⟨"hi".toList, Except.ok [], Except.ok (some dirRaw),
   Except.ok (Json.str ['r']), Except.error ("late".toList)⟩

/-- A turn whose gateway call succeeds with absent content. -/
def envEmpty : TurnEnv :=
  ⟨"hi".toList, Except.ok [], Except.ok none,
   Except.ok (Json.str ['r']), Except.ok (some ("done".toList))⟩

/-- A turn whose tool execution throws a timeout. -/
def envToolFail : TurnEnv :=
  ⟨"hi".toList, Except.ok [], Except.ok (some dirRaw),
   Except.error ("timeout".toList), Except.ok (some ("done".toList))⟩

/-- A turn whose directive names a tool the (empty) discovered catalog does
not contain. -/
def envGhost : TurnEnv :=
  ⟨"find something".toList, Except.ok [], Except.ok (some dirGhostRaw),
   Except.error ("tool not found".toList), Except.ok (some ("done".toList))⟩

section Helpers

/-- A pattern is found in any text that ends with it. -/
theorem containsSub_suffix (pat pre : List Char) :
    containsSub pat (pre ++ pat) = true := by
  induction pre with
  | nil =>
    rw [List.nil_append]
    cases pat with
    | nil => rfl
    | cons c rest =>
      simp only [containsSub, findSub]
      rw [if_pos (List.isPrefixOf_iff_prefix.mpr (List.prefix_refl _))]
      rfl
  | cons c pre ih =>
    simp only [List.cons_append, containsSub, findSub]
    split
    · rfl
    · simp only [containsSub] at ih
      cases hfs : findSub pat (pre ++ pat) with
      | none => rw [hfs] at ih; exact absurd ih (by simp)
      | some i => rfl

/-- A pattern holding a character the text lacks never occurs in the text. -/
theorem findSub_eq_none_of_not_mem (a : Char) (pat cs : List Char)
    (ha : a ∈ pat) (hcs : a ∉ cs) : findSub pat cs = none := by
  induction cs with
  | nil =>
    have hne : pat.isEmpty = false := by
      cases pat with
      | nil => exact absurd ha (List.not_mem_nil a)
      | cons x xs => rfl
    simp only [findSub, hne, Bool.false_eq_true, if_false]
  | cons c rest ih =>
    have hp : pat.isPrefixOf (c :: rest) = false := by
      cases hh : pat.isPrefixOf (c :: rest) with
      | false => rfl
      | true => exact absurd ((List.isPrefixOf_iff_prefix.mp hh).subset ha) hcs
    simp only [findSub, hp, Bool.false_eq_true, if_false]
    rw [ih (fun h => hcs (List.mem_cons_of_mem c h))]
    rfl

/-- Scanning for the first hit skips a block on which the predicate is
everywhere false. -/
theorem firstIdxOf_append_of_none (p : Char → Bool) (l1 l2 : List Char)
    (h : ∀ c ∈ l1, p c = false) :
    firstIdxOf p (l1 ++ l2) = (firstIdxOf p l2).map (fun i => i + l1.length) := by
  induction l1 with
  | nil =>
    rw [List.nil_append]
    cases firstIdxOf p l2 with
    | none => rfl
    | some i => rfl
  | cons c rest ih =>
    rw [List.cons_append]
    simp only [firstIdxOf]
    rw [h c (List.mem_cons_self c rest), ih (fun x hx => h x (List.mem_cons_of_mem c hx))]
    simp only [Bool.false_eq_true, if_false]
    cases firstIdxOf p l2 with
    | none => rfl
    | some i =>
      show some (i + rest.length + 1) = some (i + (rest.length + 1))
      rw [Nat.add_assoc]

/-- Unfolding of a turn whose first gateway reply yields a directive and
whose follow-up gateway call succeeds. -/
theorem mainTurn_tool_ok (env : TurnEnv) (h : List Message) (tools : List Json)
    (r : List Char) (d : Directive) (fin : List Char)
    (hex : isExit env.userPrompt = false)
    (hsr : env.searchResult = Except.ok tools)
    (hr1 : getOpenAIResponse env.response1 = Except.ok r)
    (hi : interpret r = some d)
    (hr2 : getOpenAIResponse env.response2 = Except.ok fin) :
    mainTurn env h = (TurnOutcome.completed fin,
      h ++ [⟨Role.user, env.userPrompt⟩, ⟨Role.assistant, r⟩, ⟨Role.assistant, fin⟩],
      ⟨[⟨Role.system, mkSystemPrompt (formatToolsForPrompt tools)⟩ :: (h ++ [⟨Role.user, env.userPrompt⟩]),
        ⟨Role.system, mkSystemPrompt (formatToolsForPrompt tools)⟩ ::
          (h ++ [⟨Role.user, env.userPrompt⟩, ⟨Role.assistant, r⟩,
                 ⟨Role.user, ("Tool output: ".toList) ++ turnToolOutput env d⟩])],
       [(d.tool_name, d.arguments)]⟩) := by
  simp only [mainTurn, hex, hsr, hr1, hi, hr2, turnToolOutput, Bool.false_eq_true, if_false,
    List.append_assoc, List.cons_append, List.nil_append]

/-- Unfolding of a turn whose first gateway reply yields a directive and
whose follow-up gateway call throws: the outer catch absorbs the exception,
the turn completes with the raw directive text as the answer, and the user
and raw-directive messages are pushed a second time (four appended entries). -/
theorem mainTurn_tool_caught (env : TurnEnv) (h : List Message) (tools : List Json)
    (r : List Char) (d : Directive) (e : List Char)
    (hex : isExit env.userPrompt = false)
    (hsr : env.searchResult = Except.ok tools)
    (hr1 : getOpenAIResponse env.response1 = Except.ok r)
    (hi : interpret r = some d)
    (hr2 : getOpenAIResponse env.response2 = Except.error e) :
    mainTurn env h = (TurnOutcome.completed r,
      h ++ [⟨Role.user, env.userPrompt⟩, ⟨Role.assistant, r⟩,
            ⟨Role.user, env.userPrompt⟩, ⟨Role.assistant, r⟩],
      ⟨[⟨Role.system, mkSystemPrompt (formatToolsForPrompt tools)⟩ :: (h ++ [⟨Role.user, env.userPrompt⟩]),
        ⟨Role.system, mkSystemPrompt (formatToolsForPrompt tools)⟩ ::
          (h ++ [⟨Role.user, env.userPrompt⟩, ⟨Role.assistant, r⟩,
                 ⟨Role.user, ("Tool output: ".toList) ++ turnToolOutput env d⟩])],
       [(d.tool_name, d.arguments)]⟩) := by
  simp only [mainTurn, hex, hsr, hr1, hi, hr2, turnToolOutput, Bool.false_eq_true, if_false,
    List.append_assoc, List.cons_append, List.nil_append]

/-- Unfolding of a turn whose first gateway reply yields no directive: the
reply is treated as a plain assistant message. -/
theorem mainTurn_plain (env : TurnEnv) (h : List Message) (tools : List Json)
    (r : List Char)
    (hex : isExit env.userPrompt = false)
    (hsr : env.searchResult = Except.ok tools)
    (hr1 : getOpenAIResponse env.response1 = Except.ok r)
    (hi : interpret r = none) :
    mainTurn env h = (TurnOutcome.completed r,
      h ++ [⟨Role.user, env.userPrompt⟩, ⟨Role.assistant, r⟩],
      ⟨[⟨Role.system, mkSystemPrompt (formatToolsForPrompt tools)⟩ :: (h ++ [⟨Role.user, env.userPrompt⟩])],
       []⟩) := by
  simp only [mainTurn, hex, hsr, hr1, hi, Bool.false_eq_true, if_false,
    List.append_assoc, List.cons_append, List.nil_append]

/-- Unfolding of a turn whose first gateway call throws: the exception
escapes before any history push. -/
theorem mainTurn_query_crash (env : TurnEnv) (h : List Message) (tools : List Json)
    (e : List Char)
    (hex : isExit env.userPrompt = false)
    (hsr : env.searchResult = Except.ok tools)
    (hr1 : getOpenAIResponse env.response1 = Except.error e) :
    mainTurn env h = (TurnOutcome.crashed e, h,
      ⟨[⟨Role.system, mkSystemPrompt (formatToolsForPrompt tools)⟩ :: (h ++ [⟨Role.user, env.userPrompt⟩])],
       []⟩) := by
  simp only [mainTurn, hex, hsr, hr1, Bool.false_eq_true, if_false]

/-- A completing iteration yields a completed outcome and appends exactly
three messages when a tool was used and the follow-up succeeded, four when
the follow-up threw (caught, double push), and two otherwise. -/
theorem mainTurn_completes (env : TurnEnv) (h : List Message)
    (hc : envCompletes env = true) :
    ∃ ans tr rest, mainTurn env h = (TurnOutcome.completed ans, h ++ rest, tr) ∧
      rest.length =
        if envToolUsed env then (if envFollowUpThrew env then 4 else 3) else 2 := by
  unfold envCompletes at hc
  rw [Bool.and_eq_true] at hc
  obtain ⟨hex', hc2⟩ := hc
  have hex : isExit env.userPrompt = false := by simpa using hex'
  cases hsr : env.searchResult with
  | error e => simp [hsr] at hc2
  | ok tools =>
    cases hr1 : getOpenAIResponse env.response1 with
    | error e => simp [hsr, hr1] at hc2
    | ok r =>
      cases hi : interpret r with
      | none =>
        exact ⟨r, _, _, mainTurn_plain env h tools r hex hsr hr1 hi,
          by simp [envToolUsed, hr1, hi]⟩
      | some d =>
        cases hr2 : getOpenAIResponse env.response2 with
        | error e =>
          exact ⟨r, _, _, mainTurn_tool_caught env h tools r d e hex hsr hr1 hi hr2,
            by simp [envToolUsed, envFollowUpThrew, hr1, hi, hr2]⟩
        | ok fin =>
          exact ⟨fin, _, _, mainTurn_tool_ok env h tools r d fin hex hsr hr1 hi hr2,
            by simp [envToolUsed, envFollowUpThrew, hr1, hi, hr2]⟩

end Helpers


set_option maxRecDepth 100000

/-- C1, counterexample: on a turn whose initial gateway call throws, the
loop body yields a crashed outcome (the exception escapes and the process
exits), not a completed turn whose answer is the error text; hence the
claim that the session continues accepting input after a gateway failure is
false. -/
theorem gateway_failure_claim_false :
    mainTurn envFailQuery [] = (TurnOutcome.crashed ("boom".toList), [],
      ⟨[⟨Role.system, mkSystemPrompt (formatToolsForPrompt [])⟩ :: [⟨Role.user, "hi".toList⟩]], []⟩) ∧
    ¬ claimGatewayFailureFatal := by
  refine ⟨rfl, fun hcl => ?_⟩
  have h1 := (hcl.1 envFailQuery [] ("boom".toList) rfl ⟨[], rfl⟩ rfl).1
  rw [show (mainTurn envFailQuery []).1 = TurnOutcome.crashed ("boom".toList) from rfl] at h1
  exact absurd h1 (by simp)

/-- C1, amended: the two gateway calls fail differently, and neither as the
claim states.  An initial-query failure propagates out of the loop: the
turn does not complete, the history is unchanged, and the session
terminates instead of continuing to accept input.  A follow-up re-query
failure is absorbed by the catch wrapping the directive path: the turn
completes, but with the assistant's raw directive text as the answer (the
error is swallowed, not surfaced), and the history grows by four entries —
the user message and the raw directive text are pushed a second time — and
the session then continues with the next turn. -/
theorem gateway_failure_initial_vs_followup :
    (∀ (env : TurnEnv) (h : List Message) (tools : List Json) (e : List Char),
        isExit env.userPrompt = false →
        env.searchResult = Except.ok tools →
        getOpenAIResponse env.response1 = Except.error e →
        (mainTurn env h).1 = TurnOutcome.crashed e ∧
        (mainTurn env h).2.1 = h ∧
        ∀ rest, runSession (env :: rest) h = h) ∧
    (∀ (env : TurnEnv) (h : List Message) (tools : List Json) (r : List Char)
        (d : Directive) (e : List Char),
        isExit env.userPrompt = false →
        env.searchResult = Except.ok tools →
        getOpenAIResponse env.response1 = Except.ok r →
        interpret r = some d →
        getOpenAIResponse env.response2 = Except.error e →
        (mainTurn env h).1 = TurnOutcome.completed r ∧
        (mainTurn env h).2.1 =
          h ++ [⟨Role.user, env.userPrompt⟩, ⟨Role.assistant, r⟩,
                ⟨Role.user, env.userPrompt⟩, ⟨Role.assistant, r⟩] ∧
        ∀ rest, runSession (env :: rest) h =
          runSession rest
            (h ++ [⟨Role.user, env.userPrompt⟩, ⟨Role.assistant, r⟩,
                   ⟨Role.user, env.userPrompt⟩, ⟨Role.assistant, r⟩])) := by
  constructor
  · intro env h tools e hex hsr hr1
    have heq := mainTurn_query_crash env h tools e hex hsr hr1
    refine ⟨by rw [heq], by rw [heq], fun rest => ?_⟩
    simp only [runSession, heq]
  · intro env h tools r d e hex hsr hr1 hi hr2
    have heq := mainTurn_tool_caught env h tools r d e hex hsr hr1 hi hr2
    refine ⟨by rw [heq], by rw [heq], fun rest => ?_⟩
    simp only [runSession, heq]

/-- C1, witness: the amended theorem evaluated on concrete failing
environments; the follow-up-failure turn answers with the raw directive
text, leaves four entries, and the session continues. -/
theorem gateway_failure_initial_vs_followup_witness :
    ((mainTurn envFailQuery []).1 = TurnOutcome.crashed ("boom".toList) ∧
     (mainTurn envFailQuery []).2.1 = [] ∧
     runSession [envFailQuery, envPlain] [] = []) ∧
    ((mainTurn envFailFollow []).1 = TurnOutcome.completed dirRaw ∧
     (mainTurn envFailFollow []).2.1 =
       [⟨Role.user, "hi".toList⟩, ⟨Role.assistant, dirRaw⟩,
        ⟨Role.user, "hi".toList⟩, ⟨Role.assistant, dirRaw⟩] ∧
     runSession [envFailFollow] [] =
       [⟨Role.user, "hi".toList⟩, ⟨Role.assistant, dirRaw⟩,
        ⟨Role.user, "hi".toList⟩, ⟨Role.assistant, dirRaw⟩]) := by
  have h1 := gateway_failure_initial_vs_followup.1 envFailQuery [] [] ("boom".toList)
    rfl rfl rfl
  have h2 := gateway_failure_initial_vs_followup.2 envFailFollow [] [] dirRaw dirVal
    ("late".toList) rfl rfl rfl rfl rfl
  exact ⟨⟨h1.1, h1.2.1, h1.2.2 [envPlain]⟩, ⟨h2.1, h2.2.1, h2.2.2 []⟩⟩

/-- C2, counterexample: a single completed tool-using turn leaves three
history entries, so the claimed length `2*(N+M)` fails already at
`N = 1, M = 0`. -/
theorem history_growth_claim_false :
    envCompletes envTool = true ∧
    (runSession [envTool] []).length = 3 ∧
    ¬ claimHistoryPairGrowth := by
  refine ⟨by decide, rfl, fun hcl => ?_⟩
  have h2 := hcl [envTool] (by decide)
  rw [show (runSession [envTool] []).length = 3 from rfl] at h2
  simp at h2

/-- C2, amended: after `N` completed tool-using turns whose follow-up
gateway call succeeded, `F` completed tool-using turns whose follow-up call
threw (the catch pushes the user message and raw directive a second time),
and `M` completed turns without tool use, the history length equals
`3*N + 4*F + 2*M`. -/
theorem history_growth_per_turn (envs : List TurnEnv) (h0 : List Message)
    (hall : ∀ e ∈ envs, envCompletes e = true) :
    (runSession envs h0).length =
      h0.length
        + 3 * envs.countP (fun e => envToolUsed e && !envFollowUpThrew e)
        + 4 * envs.countP (fun e => envToolUsed e && envFollowUpThrew e)
        + 2 * envs.countP (fun e => !envToolUsed e) := by
  induction envs generalizing h0 with
  | nil => simp [runSession]
  | cons e rest ih =>
    obtain ⟨ans, tr, app, heq, hlen⟩ :=
      mainTurn_completes e h0 (hall e (List.mem_cons_self e rest))
    simp only [runSession, heq]
    rw [ih (h0 ++ app) (fun x hx => hall x (List.mem_cons_of_mem e hx))]
    rw [List.length_append, List.countP_cons, List.countP_cons, List.countP_cons]
    cases ht : envToolUsed e
    · rw [ht] at hlen
      simp at hlen
      cases hf : envFollowUpThrew e
      · simp [ht, hf]
        omega
      · simp [ht, hf]
        omega
    · rw [ht] at hlen
      cases hf : envFollowUpThrew e
      · rw [hf] at hlen
        simp at hlen
        simp [ht, hf]
        omega
      · rw [hf] at hlen
        simp at hlen
        simp [ht, hf]
        omega

/-- C2, witness: one tool-using turn with a successful follow-up, one
tool-using turn whose follow-up threw, and one plain completed turn leave
nine history entries (3 + 4 + 2). -/
theorem history_growth_per_turn_witness :
    (∀ e ∈ [envTool, envFailFollow, envPlain], envCompletes e = true) ∧
    (runSession [envTool, envFailFollow, envPlain] []).length = 9 :=
  ⟨by decide, history_growth_per_turn [envTool, envFailFollow, envPlain] [] (by decide)⟩

/-- C7, counterexample: a gateway call that succeeds with absent content is
coerced to the empty string and treated as a plain assistant reply — the
turn completes with the empty answer and two entries are appended to the
history, contradicting the claim that this case is turn-fatal with the
history left unchanged. -/
theorem empty_content_claim_false :
    mainTurn envEmpty [] = (TurnOutcome.completed [],
      [⟨Role.user, "hi".toList⟩, ⟨Role.assistant, []⟩],
      ⟨[⟨Role.system, mkSystemPrompt (formatToolsForPrompt [])⟩ :: [⟨Role.user, "hi".toList⟩]], []⟩) ∧
    ¬ claimEmptyContentFatal := by
  refine ⟨rfl, fun hcl => ?_⟩
  have h1 := (hcl envEmpty [] rfl ⟨[], rfl⟩ rfl).2
  exact h1 rfl

/-- C7, amended: when the gateway call succeeds but its content is absent,
the empty string is interpreted as a plain assistant reply: the turn
completes with the empty answer and appends the user message and an empty
assistant message; the condition is not classified as turn-fatal and the
history is not left unchanged. -/
theorem empty_content_plain_reply (env : TurnEnv) (h : List Message) (tools : List Json)
    (hex : isExit env.userPrompt = false)
    (hsr : env.searchResult = Except.ok tools)
    (hr1 : env.response1 = Except.ok none) :
    mainTurn env h = (TurnOutcome.completed [],
      h ++ [⟨Role.user, env.userPrompt⟩, ⟨Role.assistant, []⟩],
      ⟨[⟨Role.system, mkSystemPrompt (formatToolsForPrompt tools)⟩ :: (h ++ [⟨Role.user, env.userPrompt⟩])],
       []⟩) := by
  have hr1' : getOpenAIResponse env.response1 = Except.ok [] := by rw [hr1]; rfl
  exact mainTurn_plain env h tools [] hex hsr hr1' rfl

/-- C7, witness: the amended theorem evaluated on a concrete environment
with absent content. -/
theorem empty_content_plain_reply_witness :
    envEmpty.response1 = Except.ok none ∧
    mainTurn envEmpty [] = (TurnOutcome.completed [],
      [⟨Role.user, "hi".toList⟩, ⟨Role.assistant, []⟩],
      ⟨[⟨Role.system, mkSystemPrompt (formatToolsForPrompt [])⟩ :: [⟨Role.user, "hi".toList⟩]], []⟩) :=
  ⟨rfl, empty_content_plain_reply envEmpty [] [] rfl rfl rfl⟩

/-- C5: when the tool execution throws, the turn does not abort — the tool
output becomes the human-readable string combining the tool name and the
failure reason, the follow-up query's synthetic user message carries that
error text (in particular it contains the failure reason, e.g. `timeout`),
and the turn completes normally with the second gateway response as the
answer. -/
theorem tool_failure_not_fatal (env : TurnEnv) (h : List Message) (tools : List Json)
    (r : List Char) (d : Directive) (msg fin : List Char)
    (hex : isExit env.userPrompt = false)
    (hsr : env.searchResult = Except.ok tools)
    (hr1 : getOpenAIResponse env.response1 = Except.ok r)
    (hi : interpret r = some d)
    (htool : env.toolResult = Except.error msg)
    (hr2 : getOpenAIResponse env.response2 = Except.ok fin) :
    mainTurn env h = (TurnOutcome.completed fin,
      h ++ [⟨Role.user, env.userPrompt⟩, ⟨Role.assistant, r⟩, ⟨Role.assistant, fin⟩],
      ⟨[⟨Role.system, mkSystemPrompt (formatToolsForPrompt tools)⟩ :: (h ++ [⟨Role.user, env.userPrompt⟩]),
        ⟨Role.system, mkSystemPrompt (formatToolsForPrompt tools)⟩ ::
          (h ++ [⟨Role.user, env.userPrompt⟩, ⟨Role.assistant, r⟩,
                 ⟨Role.user, ("Tool output: ".toList) ++
                   (("Error calling ".toList) ++ jsToString d.tool_name ++ (": ".toList) ++ msg)⟩])],
       [(d.tool_name, d.arguments)]⟩) ∧
    containsSub msg (("Tool output: ".toList) ++
      (("Error calling ".toList) ++ jsToString d.tool_name ++ (": ".toList) ++ msg)) = true := by
  constructor
  · have heq := mainTurn_tool_ok env h tools r d fin hex hsr hr1 hi hr2
    rw [heq]
    simp only [turnToolOutput, htool]
  · have hc := containsSub_suffix msg
      (("Tool output: ".toList) ++ (("Error calling ".toList) ++ jsToString d.tool_name ++ (": ".toList)))
    simpa [List.append_assoc] using hc

/-- C5, witness: a concrete turn whose executor throws `timeout` completes
with the stubbed second reply, and the re-query message contains
`timeout`. -/
theorem tool_failure_not_fatal_witness :
    envToolFail.toolResult = Except.error ("timeout".toList) ∧
    interpret dirRaw = some dirVal ∧
    ((mainTurn envToolFail []).1 = TurnOutcome.completed ("done".toList) ∧
     containsSub ("timeout".toList) ("Tool output: Error calling t: timeout".toList) = true) := by
  have h1 := tool_failure_not_fatal envToolFail [] [] dirRaw dirVal
    ("timeout".toList) ("done".toList) rfl rfl rfl rfl rfl rfl
  exact ⟨rfl, rfl, by rw [h1.1], h1.2⟩

/-- C6: a tool-using turn sends the synthetic `Tool output: ...` user
message only in the follow-up gateway query; the turn appends to the
history exactly the real user message, the assistant's raw directive text
and the assistant's final interpreted text, and none of the persisted
messages carries the system role. -/
theorem tool_turn_appends_exactly_three (env : TurnEnv) (h : List Message) (tools : List Json)
    (r : List Char) (d : Directive) (fin : List Char)
    (hex : isExit env.userPrompt = false)
    (hsr : env.searchResult = Except.ok tools)
    (hr1 : getOpenAIResponse env.response1 = Except.ok r)
    (hi : interpret r = some d)
    (hr2 : getOpenAIResponse env.response2 = Except.ok fin) :
    mainTurn env h = (TurnOutcome.completed fin,
      h ++ [⟨Role.user, env.userPrompt⟩, ⟨Role.assistant, r⟩, ⟨Role.assistant, fin⟩],
      ⟨[⟨Role.system, mkSystemPrompt (formatToolsForPrompt tools)⟩ :: (h ++ [⟨Role.user, env.userPrompt⟩]),
        ⟨Role.system, mkSystemPrompt (formatToolsForPrompt tools)⟩ ::
          (h ++ [⟨Role.user, env.userPrompt⟩, ⟨Role.assistant, r⟩,
                 ⟨Role.user, ("Tool output: ".toList) ++ turnToolOutput env d⟩])],
       [(d.tool_name, d.arguments)]⟩) ∧
    (∀ m ∈ ([⟨Role.user, env.userPrompt⟩, ⟨Role.assistant, r⟩,
             ⟨Role.assistant, fin⟩] : List Message), m.role ≠ Role.system) := by
  refine ⟨mainTurn_tool_ok env h tools r d fin hex hsr hr1 hi hr2, ?_⟩
  intro m hm
  simp only [List.mem_cons, List.not_mem_nil, or_false] at hm
  rcases hm with hm | hm | hm <;> subst hm <;> simp

/-- C6, witness: the exact-append equation evaluated on a concrete
tool-using turn. -/
theorem tool_turn_appends_exactly_three_witness :
    interpret dirRaw = some dirVal ∧
    mainTurn envTool [] = (TurnOutcome.completed ("done".toList),
      [⟨Role.user, "hi".toList⟩, ⟨Role.assistant, dirRaw⟩, ⟨Role.assistant, "done".toList⟩],
      ⟨[⟨Role.system, mkSystemPrompt (formatToolsForPrompt [])⟩ :: [⟨Role.user, "hi".toList⟩],
        ⟨Role.system, mkSystemPrompt (formatToolsForPrompt [])⟩ ::
          [⟨Role.user, "hi".toList⟩, ⟨Role.assistant, dirRaw⟩,
           ⟨Role.user, ("Tool output: \"r\"").toList⟩]],
       [(Json.str ['t'], Json.obj [])]⟩) :=
  ⟨rfl, (tool_turn_appends_exactly_three envTool [] [] dirRaw dirVal ("done".toList)
    rfl rfl rfl rfl rfl).1⟩

/-- C8: every message list sent to the gateway during a turn — the initial
query and the follow-up re-query — has as its first element the system
message rebuilt from the tool descriptors discovered for that turn. -/
theorem query_head_is_system_message (env : TurnEnv) (h : List Message) (tools : List Json)
    (hex : isExit env.userPrompt = false)
    (hsr : env.searchResult = Except.ok tools) :
    ∀ q ∈ (mainTurn env h).2.2.queries,
      q.head? = some ⟨Role.system, mkSystemPrompt (formatToolsForPrompt tools)⟩ := by
  cases hr1 : getOpenAIResponse env.response1 with
  | error e =>
    rw [mainTurn_query_crash env h tools e hex hsr hr1]
    intro q hq
    simp at hq
    subst hq
    rfl
  | ok r =>
    cases hi : interpret r with
    | none =>
      rw [mainTurn_plain env h tools r hex hsr hr1 hi]
      intro q hq
      simp at hq
      subst hq
      rfl
    | some d =>
      cases hr2 : getOpenAIResponse env.response2 with
      | error e =>
        rw [mainTurn_tool_caught env h tools r d e hex hsr hr1 hi hr2]
        intro q hq
        simp at hq
        rcases hq with hq | hq <;> subst hq <;> rfl
      | ok fin =>
        rw [mainTurn_tool_ok env h tools r d fin hex hsr hr1 hi hr2]
        intro q hq
        simp at hq
        rcases hq with hq | hq <;> subst hq <;> rfl

/-- C8, witness: both queries of a concrete tool-using turn start with the
current system message. -/
theorem query_head_is_system_message_witness :
    envTool.searchResult = Except.ok [] ∧
    ∀ q ∈ (mainTurn envTool []).2.2.queries,
      q.head? = some ⟨Role.system, mkSystemPrompt (formatToolsForPrompt [])⟩ := by
  exact ⟨rfl, query_head_is_system_message envTool [] [] rfl rfl⟩

/-- C10: whenever a directive is extracted, the executor is invoked with
exactly the parsed `tool_name` and `arguments`; no hypothesis relates the
directive to the discovered tool descriptors, so a directive naming a tool
absent from the catalog slice is still passed to the executor, and the
arguments are never validated against any input schema. -/
theorem executor_called_unchecked (env : TurnEnv) (h : List Message) (tools : List Json)
    (r : List Char) (d : Directive)
    (hex : isExit env.userPrompt = false)
    (hsr : env.searchResult = Except.ok tools)
    (hr1 : getOpenAIResponse env.response1 = Except.ok r)
    (hi : interpret r = some d) :
    (mainTurn env h).2.2.toolCalls = [(d.tool_name, d.arguments)] := by
  cases hr2 : getOpenAIResponse env.response2 with
  | error e => rw [mainTurn_tool_caught env h tools r d e hex hsr hr1 hi hr2]
  | ok fin => rw [mainTurn_tool_ok env h tools r d fin hex hsr hr1 hi hr2]

/-- C10, witness: a directive naming `missing.tool`, absent from the empty
discovered catalog, is passed to the executor unchanged. -/
theorem executor_called_unchecked_witness :
    envGhost.searchResult = Except.ok [] ∧
    interpret dirGhostRaw = some dirGhost ∧
    (mainTurn envGhost []).2.2.toolCalls =
      [(Json.str ("missing.tool".toList), Json.obj [])] :=
  ⟨rfl, rfl, executor_called_unchecked envGhost [] [] dirGhostRaw dirGhost rfl rfl rfl rfl⟩

/-- C9, counterexample: the system instruction composed for the empty tool
slice does not contain the no-tool fallback phrase telling the model to
reply in natural language. -/
theorem no_tool_fallback_claim_false : ¬ claimNoToolFallback := by
  unfold claimNoToolFallback
  decide

/-- C9, amended: for the empty slice the composer emits the one fixed
instruction template with the serialized empty list appended; the
instruction states no no-tool-available fallback (in particular it never
mentions replying in natural language). -/
theorem empty_slice_prompt :
    formatToolsForPrompt [] = ("[]").toList ∧
    mkSystemPrompt (formatToolsForPrompt []) = systemPromptPrefix ++ ("[]").toList ∧
    containsSub ("natural language".toList) (mkSystemPrompt (formatToolsForPrompt [])) = false :=
  ⟨rfl, rfl, by decide⟩

/-- C4, counterexample: a reply whose only JSON object has number-typed
`tool_name` and `arguments` contains no object of the claimed shape, yet
the interpreter returns it as a directive instead of `null` — the shape
check tests key presence only, never the field types. -/
theorem interpret_type_check_claim_false :
    containsWellTypedDirective typeFreeRaw = false ∧
    interpret typeFreeRaw = some ⟨Json.num ['1'], Json.num ['2']⟩ ∧
    ¬ claimTypeCheckToNull := by
  refine ⟨by decide, rfl, fun hcl => ?_⟩
  have h2 := hcl typeFreeRaw (by decide)
  rw [show interpret typeFreeRaw = some ⟨Json.num ['1'], Json.num ['2']⟩ from rfl] at h2
  exact Option.noConfusion h2

/-- C4, amended: the interpreter returns a directive exactly when the
extracted candidate parses and both the `tool_name` and the `arguments`
keys are present, whatever the types of their values; when the parsed value
lacks either key, when parsing fails (the caught exception), or when no
candidate is extracted, it returns `null`, and the function is total
(never throws). -/
theorem interpret_key_presence :
    (∀ (raw c : List Char) (j tn ar : Json),
        extractJsonCandidate raw = some c →
        Json.parse c = some j →
        j.getField (['t', 'o', 'o', 'l', '_', 'n', 'a', 'm', 'e']) = some tn →
        j.getField (['a', 'r', 'g', 'u', 'm', 'e', 'n', 't', 's']) = some ar →
        interpret raw = some ⟨tn, ar⟩) ∧
    (∀ (raw c : List Char) (j : Json),
        extractJsonCandidate raw = some c →
        Json.parse c = some j →
        (j.getField (['t', 'o', 'o', 'l', '_', 'n', 'a', 'm', 'e']) = none ∨
         j.getField (['a', 'r', 'g', 'u', 'm', 'e', 'n', 't', 's']) = none) →
        interpret raw = none) ∧
    (∀ raw c : List Char,
        extractJsonCandidate raw = some c →
        Json.parse c = none →
        interpret raw = none) ∧
    (∀ raw : List Char, extractJsonCandidate raw = none → interpret raw = none) := by
  refine ⟨?_, ?_, ?_, ?_⟩
  · intro raw c j tn ar h1 h2 h3 h4
    simp only [interpret, h1, h2, h3, h4]
  · intro raw c j h1 h2 h3
    rcases h3 with h3 | h3
    · cases h4 : j.getField (['a', 'r', 'g', 'u', 'm', 'e', 'n', 't', 's']) <;>
        simp only [interpret, h1, h2, h3, h4]
    · cases h4 : j.getField (['t', 'o', 'o', 'l', '_', 'n', 'a', 'm', 'e']) <;>
        simp only [interpret, h1, h2, h3, h4]
  · intro raw c h1 h2
    simp only [interpret, h1, h2]
  · intro raw h1
    simp only [interpret, h1]

/-- C4, witness: the key-presence conjunct evaluated on the number-typed
directive, and the missing-key conjunct on an object without the
`tool_name` key. -/
theorem interpret_key_presence_witness :
    (extractJsonCandidate typeFreeRaw = some typeFreeRaw ∧
     interpret typeFreeRaw = some ⟨Json.num ['1'], Json.num ['2']⟩) ∧
    interpret (("\x7b\"x\":1\x7d").toList) = none :=
  ⟨⟨rfl, interpret_key_presence.1 typeFreeRaw typeFreeRaw
      (Json.obj [(("tool_name").toList, Json.num ['1']), (("arguments").toList, Json.num ['2'])])
      (Json.num ['1']) (Json.num ['2']) rfl rfl rfl rfl⟩,
   interpret_key_presence.2.1 (("\x7b\"x\":1\x7d").toList) (("\x7b\"x\":1\x7d").toList)
      (Json.obj [(['x'], Json.num ['1'])]) rfl rfl (Or.inl rfl)⟩

/-- C3, counterexample: on a text holding two brace substrings whose first
is a well-formed directive, the spec's tie-break returns that directive but
the implementation returns `none` — the greedy regex spans from the first
opening to the last closing brace and that span fails to parse. -/
theorem interpret_tie_break_claim_false :
    interpret tieBreakRaw = none ∧
    interpretSpec tieBreakRaw = some ⟨Json.str ['t'], Json.obj []⟩ ∧
    ¬ claimInterpretMatchesSpec := by
  refine ⟨rfl, rfl, fun hcl => ?_⟩
  have h2 := hcl tieBreakRaw
  rw [show interpret tieBreakRaw = none from rfl,
      show interpretSpec tieBreakRaw = some ⟨Json.str ['t'], Json.obj []⟩ from rfl] at h2
  exact Option.noConfusion h2

/-- C3, amended: with no fenced match, the extracted candidate is the
single span from the first opening brace to the last closing brace of the
whole text — no search over multiple balanced substrings happens.
Consequently a well-formed fenced-less directive is still recovered when it
is the only braced span, e.g. surrounded by brace-free and backtick-free
prose. -/
theorem interpret_greedy_span :
    (∀ (raw : List Char) (i j : Nat),
        matchFencedJson raw = none →
        firstIdxOf (fun c => c == '{') raw = some i →
        lastIdxOf (fun c => c == '}') raw = some j →
        i < j →
        extractJsonCandidate raw = some ((raw.drop i).take (j - i + 1))) ∧
    (∀ (pre body post : List Char) (jb tn ar : Json),
        backtickChar ∉ pre → backtickChar ∉ body → backtickChar ∉ post →
        '{' ∉ pre → '}' ∉ post →
        body.head? = some '{' → body.getLast? = some '}' →
        2 ≤ body.length →
        Json.parse body = some jb →
        jb.getField (['t', 'o', 'o', 'l', '_', 'n', 'a', 'm', 'e']) = some tn →
        jb.getField (['a', 'r', 'g', 'u', 'm', 'e', 'n', 't', 's']) = some ar →
        interpret (pre ++ body ++ post) = some ⟨tn, ar⟩) := by
  constructor
  · intro raw i j hfence hfi hla hij
    simp only [extractJsonCandidate, hfence, matchGreedyBrace, hfi, hla]
    rw [if_pos hij]
  · intro pre body post jb tn ar hbp hbb hbo hcp hcpost hhead hlast hlen hparse hf1 hf2
    have hnb : backtickChar ∉ pre ++ body ++ post := by
      intro hmem
      rcases List.mem_append.mp hmem with hm | hm
      · rcases List.mem_append.mp hm with hm2 | hm2
        · exact hbp hm2
        · exact hbb hm2
      · exact hbo hm
    have hfence : matchFencedJson (pre ++ body ++ post) = none := by
      unfold matchFencedJson
      rw [findSub_eq_none_of_not_mem backtickChar fencedOpenPat _ (by decide) hnb]
    obtain ⟨bt, hbody⟩ : ∃ t, body = '{' :: t := by
      cases body with
      | nil => simp at hhead
      | cons x xs =>
        simp only [List.head?_cons, Option.some.injEq] at hhead
        exact ⟨xs, by rw [hhead]⟩
    have hfi : firstIdxOf (fun c => c == '{') (pre ++ body ++ post) = some pre.length := by
      rw [List.append_assoc,
        firstIdxOf_append_of_none _ pre (body ++ post) (fun c hc => by
          simp only [beq_eq_false_iff_ne]
          intro hh
          exact hcp (hh ▸ hc))]
      rw [hbody, List.cons_append]
      simp [firstIdxOf]
    have hla : lastIdxOf (fun c => c == '}') (pre ++ body ++ post) =
        some (pre.length + body.length - 1) := by
      unfold lastIdxOf
      rw [List.reverse_append, List.reverse_append]
      rw [firstIdxOf_append_of_none _ post.reverse (body.reverse ++ pre.reverse)
        (fun c hc => by
          simp only [beq_eq_false_iff_ne]
          intro hh
          exact hcpost (hh ▸ List.mem_reverse.mp hc))]
      obtain ⟨bt2, hbrev⟩ : ∃ t, body.reverse = '}' :: t := by
        have hrev : body.reverse.head? = some '}' := by
          rw [List.head?_reverse]
          exact hlast
        cases hb : body.reverse with
        | nil => rw [hb] at hrev; simp at hrev
        | cons x xs =>
          rw [hb] at hrev
          simp only [List.head?_cons, Option.some.injEq] at hrev
          exact ⟨xs, by rw [hrev]⟩
      rw [hbrev, List.cons_append]
      simp only [firstIdxOf, beq_self_eq_true, if_true, Option.map_some]
      show some ((pre ++ body ++ post).length - 1 - (0 + post.reverse.length)) =
        some (pre.length + body.length - 1)
      congr 1
      simp only [List.length_append, List.length_reverse]
      omega
    have hij : pre.length < pre.length + body.length - 1 := by omega
    have hcand : extractJsonCandidate (pre ++ body ++ post) = some body := by
      simp only [extractJsonCandidate, hfence, matchGreedyBrace, hfi, hla]
      rw [if_pos hij]
      congr 1
      have hdrop : (pre ++ body ++ post).drop pre.length = body ++ post := by
        rw [List.append_assoc]
        exact List.drop_left pre (body ++ post)
      rw [hdrop]
      have harith : pre.length + body.length - 1 - pre.length + 1 = body.length := by omega
      rw [harith]
      exact List.take_left body post
    simp only [interpret, hcand, hparse, hf1, hf2]

/-- C3, witness: the greedy-span characterization on the two-object text,
and a directive recovered from surrounding plain prose. -/
theorem interpret_greedy_span_witness :
    (matchFencedJson tieBreakRaw = none ∧
     firstIdxOf (fun c => c == '{') tieBreakRaw = some 0 ∧
     lastIdxOf (fun c => c == '}') tieBreakRaw = some 39 ∧
     extractJsonCandidate tieBreakRaw = some ((tieBreakRaw.drop 0).take 40)) ∧
    (Json.parse dirRaw =
       some (Json.obj [(("tool_name").toList, Json.str ['t']),
                       (("arguments").toList, Json.obj [])]) ∧
     interpret (("Sure: ").toList ++ dirRaw ++ (" done.").toList) =
       some ⟨Json.str ['t'], Json.obj []⟩) := by
  constructor
  · exact ⟨by decide, by decide, by decide,
      interpret_greedy_span.1 tieBreakRaw 0 39 (by decide) (by decide) (by decide) (by omega)⟩
  · refine ⟨rfl, interpret_greedy_span.2 (("Sure: ").toList) dirRaw ((" done.").toList)
      (Json.obj [(("tool_name").toList, Json.str ['t']), (("arguments").toList, Json.obj [])])
      (Json.str ['t']) (Json.obj []) ?_ ?_ ?_ ?_ ?_ rfl rfl (by decide) rfl rfl rfl⟩
    · decide
    · decide
    · decide
    · decide
    · decide


end UtcpExample
